import Mathlib

/-!
Verification development for the Hercules dubbing/translation server and its
browser client.  The TypeScript sources are shallowly embedded: JavaScript
numbers become `ℚ`, byte buffers and ids become `String`, `Set<number>`
becomes a duplicate-free `List ℕ`, the Redis store becomes a function
`String → Option _`, and asynchronous background work is serialized in launch
order (each launched task is either run to completion as a separate step, or
split at its first `await` into a synchronous prefix and a completion step,
as noted at each definition).  `Date.now()` timestamp fields, logging and
HTTP marshaling are elided: no specified property mentions them.
-/

namespace Hercules

/-! ## TTS/translate pipeline (src/server/src/routes/tts-translate.ts) -/

namespace TTS

/-- A raw transcript fragment, as produced by `fetchTranscript`
(`offset` and `duration` are in milliseconds). -/
structure TranscriptSegment where
  text : String
  offset : ℚ
  duration : ℚ
  deriving Repr, DecidableEq

/-- `TranslatedSegment` of tts-translate.ts.  The optional `audioBuffer`
payload is a `String` standing for the audio bytes. -/
structure TranslatedSegment where
  index : ℕ
  originalText : String
  translatedText : String
  startTime : ℚ
  endTime : ℚ
  audioBuffer : Option String := none
  audioReady : Bool
  deriving Repr, DecidableEq

/-- The string append performed by
`currentText += (currentText ? ' ' : '') + seg.text`. -/
def sentenceJoin (cur t : String) : String :=
  cur ++ (if cur = "" then "" else " ") ++ t

/-- The test `/[.!?]$/.test(seg.text.trim())`. -/
def endsWithPunctuation (s : String) : Bool :=
  let t := s.trim
  t.endsWith "." || t.endsWith "!" || t.endsWith "?"

/-- Loop body condition of `mergeIntoSentences`: the running buffer closes
after appending `seg` (with buffer text `cur`, buffer start `start`, and
remaining input `rest`) iff the merged duration reached the target, the
appended text ends in sentence punctuation, or `seg` is the last fragment. -/
def closesBuffer (target : ℚ) (cur : String) (start : ℚ)
    (seg : TranscriptSegment) (rest : List TranscriptSegment) : Prop :=
  (seg.offset + seg.duration) / 1000
      - (if cur = "" then seg.offset / 1000 else start) ≥ target
    ∨ endsWithPunctuation seg.text = true
    ∨ rest = []

instance (target : ℚ) (cur : String) (start : ℚ) (seg : TranscriptSegment)
    (rest : List TranscriptSegment) :
    Decidable (closesBuffer target cur start seg rest) := by
  unfold closesBuffer; infer_instance

/-- The loop of `mergeIntoSentences`, with the mutable locals
(`currentText`, `startTime`, `segmentIndex`) made explicit parameters.
`endTime` is reassigned before every use, so it is not carried. -/
def mergeGo (target : ℚ) :
    List TranscriptSegment → String → ℚ → ℕ → List TranslatedSegment
  | [], _, _, _ => []
  | seg :: rest, currentText, startTime, segmentIndex =>
    let startTime' := if currentText = "" then seg.offset / 1000 else startTime
    let text' := sentenceJoin currentText seg.text
    let endTime' := (seg.offset + seg.duration) / 1000
    if closesBuffer target currentText startTime seg rest then
      { index := segmentIndex, originalText := text'.trim, translatedText := "",
        startTime := startTime', endTime := endTime', audioReady := false }
        :: mergeGo target rest "" startTime' (segmentIndex + 1)
    else
      mergeGo target rest text' startTime' segmentIndex

/-- `mergeIntoSentences(rawSegments, targetDuration)`. -/
def mergeIntoSentences (rawSegments : List TranscriptSegment)
    (targetDuration : ℚ := 6) : List TranslatedSegment :=
  mergeGo targetDuration rawSegments "" 0 0

/-- Ghost-instrumented run of the same loop that records, for each emitted
segment, the list of fragments accumulated into it (`buf` is the running
buffer).  The branching is identical to `mergeGo`. -/
def mergeGroupsGo (target : ℚ) :
    List TranscriptSegment → String → ℚ → List TranscriptSegment →
      List (List TranscriptSegment)
  | [], _, _, _ => []
  | seg :: rest, currentText, startTime, buf =>
    let startTime' := if currentText = "" then seg.offset / 1000 else startTime
    if closesBuffer target currentText startTime seg rest then
      (buf ++ [seg]) :: mergeGroupsGo target rest "" startTime' []
    else
      mergeGroupsGo target rest (sentenceJoin currentText seg.text) startTime'
        (buf ++ [seg])

/-- Fragment groups underlying `mergeIntoSentences`. -/
def mergeGroups (rawSegments : List TranscriptSegment)
    (targetDuration : ℚ := 6) : List (List TranscriptSegment) :=
  mergeGroupsGo targetDuration rawSegments "" 0 []

lemma mergeGroupsGo_join (target : ℚ) :
    ∀ (l : List TranscriptSegment) (cur : String) (st : ℚ)
      (buf : List TranscriptSegment), l ≠ [] →
      (mergeGroupsGo target l cur st buf).flatten = buf ++ l := by
  intro l
  induction l with
  | nil => intro _ _ _ h; exact absurd rfl h
  | cons seg rest ih =>
    intro cur st buf _
    by_cases hc : closesBuffer target cur st seg rest
    · rcases eq_or_ne rest [] with hr | hr
      · subst hr
        simp [mergeGroupsGo, hc]
      · simp only [mergeGroupsGo, if_pos hc, List.flatten_cons]
        rw [ih _ _ _ hr]
        simp
    · have hr : rest ≠ [] := fun h => hc (Or.inr (Or.inr h))
      simp only [mergeGroupsGo, if_neg hc]
      rw [ih _ _ _ hr]
      simp

lemma mergeGroupsGo_length_eq (target : ℚ) :
    ∀ (l : List TranscriptSegment) (cur : String) (st : ℚ)
      (buf : List TranscriptSegment) (idx : ℕ),
      (mergeGroupsGo target l cur st buf).length
        = (mergeGo target l cur st idx).length := by
  intro l
  induction l with
  | nil => intro _ _ _ _; simp [mergeGroupsGo, mergeGo]
  | cons seg rest ih =>
    intro cur st buf idx
    by_cases hc : closesBuffer target cur st seg rest
    · simp only [mergeGroupsGo, mergeGo, if_pos hc, List.length_cons]
      rw [ih]
    · simp only [mergeGroupsGo, mergeGo, if_neg hc]
      rw [ih]

lemma mergeGo_length_le (target : ℚ) :
    ∀ (l : List TranscriptSegment) (cur : String) (st : ℚ) (idx : ℕ),
      (mergeGo target l cur st idx).length ≤ l.length := by
  intro l
  induction l with
  | nil => intro _ _ _; simp [mergeGo]
  | cons seg rest ih =>
    intro cur st idx
    by_cases hc : closesBuffer target cur st seg rest
    · simp only [mergeGo, if_pos hc, List.length_cons]
      exact Nat.succ_le_succ (ih _ _ _)
    · simp only [mergeGo, if_neg hc, List.length_cons]
      exact Nat.le_succ_of_le (ih _ _ _)

lemma mergeGo_originalText (target : ℚ) :
    ∀ (l : List TranscriptSegment) (cur : String) (st : ℚ)
      (buf : List TranscriptSegment) (idx : ℕ),
      cur = (buf.map TranscriptSegment.text).foldl sentenceJoin "" →
      (mergeGo target l cur st idx).map TranslatedSegment.originalText
        = (mergeGroupsGo target l cur st buf).map
            (fun g => ((g.map TranscriptSegment.text).foldl sentenceJoin "").trim) := by
  intro l
  induction l with
  | nil => intro _ _ _ _ _; simp [mergeGo, mergeGroupsGo]
  | cons seg rest ih =>
    intro cur st buf idx hcur
    have hstep : sentenceJoin cur seg.text
        = ((buf ++ [seg]).map TranscriptSegment.text).foldl sentenceJoin "" := by
      simp [hcur, List.foldl_append]
    by_cases hc : closesBuffer target cur st seg rest
    · simp only [mergeGo, mergeGroupsGo, if_pos hc, List.map_cons]
      rw [ih _ _ [] _ (by simp), ← hstep]
    · simp only [mergeGo, mergeGroupsGo, if_neg hc]
      exact ih _ _ (buf ++ [seg]) _ hstep

lemma mergeGroupsGo_head (target : ℚ) :
    ∀ (l : List TranscriptSegment) (cur : String) (st : ℚ)
      (buf : List TranscriptSegment), l ≠ [] →
      ∃ p, p ≠ [] ∧ (mergeGroupsGo target l cur st buf).head? = some (buf ++ p) := by
  intro l
  induction l with
  | nil => intro _ _ _ h; exact absurd rfl h
  | cons seg rest ih =>
    intro cur st buf _
    by_cases hc : closesBuffer target cur st seg rest
    · exact ⟨[seg], by simp, by simp [mergeGroupsGo, hc]⟩
    · have hr : rest ≠ [] := fun h => hc (Or.inr (Or.inr h))
      obtain ⟨p, hp, hh⟩ :=
        ih (sentenceJoin cur seg.text)
          (if cur = "" then seg.offset / 1000 else st) (buf ++ [seg]) hr
      refine ⟨seg :: p, by simp, ?_⟩
      simp only [mergeGroupsGo, if_neg hc]
      rw [hh]
      simp

lemma mergeGroupsGo_closes_iff (target : ℚ) (seg : TranscriptSegment)
    (rest : List TranscriptSegment) (cur : String) (st : ℚ)
    (buf : List TranscriptSegment) :
    (mergeGroupsGo target (seg :: rest) cur st buf).head? = some (buf ++ [seg])
      ↔ closesBuffer target cur st seg rest := by
  constructor
  · intro h
    by_contra hc
    have hr : rest ≠ [] := fun hre => hc (Or.inr (Or.inr hre))
    obtain ⟨p, hp, hh⟩ :=
      mergeGroupsGo_head target rest (sentenceJoin cur seg.text)
        (if cur = "" then seg.offset / 1000 else st) (buf ++ [seg]) hr
    rw [show (mergeGroupsGo target (seg :: rest) cur st buf)
          = mergeGroupsGo target rest (sentenceJoin cur seg.text)
              (if cur = "" then seg.offset / 1000 else st) (buf ++ [seg]) by
        simp [mergeGroupsGo, hc], hh] at h
    have h2 : (buf ++ [seg]) ++ p = buf ++ [seg] := Option.some_injective _ h
    have hp0 : p = [] := by simpa using congrArg List.length h2
    exact hp hp0
  · intro hc
    simp [mergeGroupsGo, hc]

end TTS

/-! ### C2: segment-merger coverage -/

open TTS in
/-- C2.  The segment merger (`mergeIntoSentences`) assigns every transcript
fragment to exactly one output segment in input order (the ghost groups of
the same loop concatenate back to the input, correspond one-to-one with the
produced segments, and each segment's text is the join of its group's
texts); the number of segments never exceeds the number of fragments; an
empty input yields an empty segment list; and a buffer closes into a segment
exactly when the accumulated duration reaches the target floor, the appended
fragment's trimmed text ends in `.`, `!` or `?`, or the appended fragment is
the last of the input. -/
theorem merge_coverage (target : ℚ) (raw : List TranscriptSegment) :
    mergeIntoSentences ([] : List TranscriptSegment) target = []
    ∧ (mergeIntoSentences raw target).length ≤ raw.length
    ∧ (mergeGroups raw target).flatten = raw
    ∧ (mergeGroups raw target).length = (mergeIntoSentences raw target).length
    ∧ (mergeIntoSentences raw target).map TranslatedSegment.originalText
        = (mergeGroups raw target).map
            (fun g => ((g.map TranscriptSegment.text).foldl sentenceJoin "").trim)
    ∧ (∀ (seg : TranscriptSegment) (rest : List TranscriptSegment)
          (cur : String) (st : ℚ) (buf : List TranscriptSegment),
        (mergeGroupsGo target (seg :: rest) cur st buf).head? = some (buf ++ [seg])
          ↔ closesBuffer target cur st seg rest) := by
  refine ⟨rfl, mergeGo_length_le target raw "" 0 0, ?_,
    mergeGroupsGo_length_eq target raw "" 0 [] 0,
    mergeGo_originalText target raw "" 0 [] 0 rfl,
    fun seg rest cur st buf => mergeGroupsGo_closes_iff target seg rest cur st buf⟩
  rcases eq_or_ne raw [] with h | h
  · subst h; rfl
  · simpa using mergeGroupsGo_join target raw "" 0 [] h

/-! ## Fixed 30-second chunk arithmetic (server and client) -/

namespace Dub

/-- `CHUNK_DURATION` of src/server/src/services/elevenlabs.ts. -/
def CHUNK_DURATION : ℚ := 30

/-- Index computation of `getChunkForTime`:
`Math.floor(currentTime / CHUNK_DURATION)`. -/
def chunkIndexForTime (t : ℚ) : ℤ := ⌊t / CHUNK_DURATION⌋

end Dub

namespace Client

/-- Client-side `CHUNK_DURATION` ("must match server config"). -/
def CHUNK_DURATION : ℚ := 30

/-- `getChunkIndex(time)` of the chunk-based content script. -/
def getChunkIndex (time : ℚ) : ℤ := ⌊time / CHUNK_DURATION⌋

end Client

/-! ### C8: unit locating arithmetic -/

/-- C8.  Unit location is `floor(time / CHUNK_DURATION)` on the server
(`getChunkForTime`) and the client (`getChunkIndex`), the two agree, and for
`CHUNK_DURATION = 30` we get `locate 0 = 0`, `locate 29.9 = 0`,
`locate 30 = 1`. -/
theorem chunk_locate (t : ℚ) :
    Client.getChunkIndex t = Dub.chunkIndexForTime t
    ∧ Client.getChunkIndex t = ⌊t / 30⌋
    ∧ Client.getChunkIndex 0 = 0
    ∧ Client.getChunkIndex (299 / 10) = 0
    ∧ Client.getChunkIndex 30 = 1 := by
  refine ⟨rfl, rfl, ?_, ?_, ?_⟩
  · simp [Client.getChunkIndex, Client.CHUNK_DURATION]
  · rw [Client.getChunkIndex, Client.CHUNK_DURATION, Int.floor_eq_iff]
    norm_num
  · rw [Client.getChunkIndex, Client.CHUNK_DURATION, Int.floor_eq_iff]
    norm_num

/-! ## TTS session store, request handler and audio production
(src/server/src/routes/tts-translate.ts) -/

namespace TTS

/-- `TTSSession` (the session id is the key under which the session is held
in the store and is not duplicated here). -/
structure TTSSession where
  youtubeUrl : String
  targetLang : String
  segments : List TranslatedSegment
  generatingAudio : List ℕ
  deriving DecidableEq

/-- `Set.add`: JavaScript set insertion (idempotent). -/
def setAdd (s : List ℕ) (n : ℕ) : List ℕ := if n ∈ s then s else n :: s

/-- `Set.delete`. -/
def setDelete (s : List ℕ) (n : ℕ) : List ℕ := s.filter (fun m => m ≠ n)

/-- A session together with the Redis audio cache it reads and writes
(`tts-audio:url:lang:index` keys become `(url, lang, index)` tuples). -/
structure TTSState where
  session : TTSSession
  cache : String × String × ℕ → Option String

def setSeg (st : TTSState) (i : ℕ) (seg : TranslatedSegment) : TTSState :=
  { st with session := { st.session with segments := st.session.segments.set i seg } }

def addGen (st : TTSState) (n : ℕ) : TTSState :=
  { st with session := { st.session with
      generatingAudio := setAdd st.session.generatingAudio n } }

def delGen (st : TTSState) (n : ℕ) : TTSState :=
  { st with session := { st.session with
      generatingAudio := setDelete st.session.generatingAudio n } }

def writeCache (st : TTSState) (key : String × String × ℕ) (v : String) : TTSState :=
  { st with cache := fun k => if k = key then some v else st.cache k }

mutual

/-- `generateSegmentAudio(session, segment)` where `segment` is the session
segment at position `i`.  The provider `generateSpeech` is a function
`speech` from the synthesized text to either audio bytes or a thrown error;
the returned list records the position of every segment for which a
`generateSpeech` call was issued.  The prefetch tasks launched for the next
three segments (fire-and-forget in the source) are run sequentially in
launch order.  `fuel` bounds the recursion depth; the cascade only moves to
strictly larger positions of a consistent session, so any
`fuel > segments.length` is enough. -/
def genAudio (speech : String → Except String String) (fuel : ℕ) (st : TTSState)
    (i : ℕ) : TTSState × List ℕ :=
  match fuel with
  | 0 => (st, [])
  | fuel' + 1 =>
    match st.session.segments.get? i with
    | none => (st, [])
    | some seg =>
      match st.cache (st.session.youtubeUrl, st.session.targetLang, seg.index) with
      | some cached =>
        (delGen (setSeg st i
          { seg with audioBuffer := some cached, audioReady := true }) seg.index, [])
      | none =>
        match speech seg.translatedText with
        | .error _ => (delGen st seg.index, [i])
        | .ok buf =>
          let st1 := setSeg st i { seg with audioBuffer := some buf, audioReady := true }
          let st2 := delGen st1 seg.index
          let st3 := writeCache st2
            (st2.session.youtubeUrl, st2.session.targetLang, seg.index) buf
          let p1 := genPrefetch speech fuel' st3 seg.index 1
          let p2 := genPrefetch speech fuel' p1.1 seg.index 2
          let p3 := genPrefetch speech fuel' p2.1 seg.index 3
          (p3.1, i :: (p1.2 ++ p2.2 ++ p3.2))
termination_by (fuel, 0)

/-- One iteration of the prefetch loop at the end of `generateSegmentAudio`
(`nextSeg = session.segments[segment.index + k]`): if the next segment
exists, has translated text, has no audio yet and is not in flight, it is
entered into the in-flight set and its production is launched. -/
def genPrefetch (speech : String → Except String String) (fuel : ℕ) (st : TTSState)
    (base k : ℕ) : TTSState × List ℕ :=
  match st.session.segments.get? (base + k) with
  | none => (st, [])
  | some nx =>
    if nx.translatedText ≠ "" ∧ nx.audioReady = false
        ∧ nx.index ∉ st.session.generatingAudio then
      genAudio speech fuel (addGen st nx.index) (base + k)
    else (st, [])
termination_by (fuel, 1)

end

/-- The request body of `POST /session/:sessionId/segment`: a numeric
`segmentIndex` (preload) or a `currentTime` lookup. -/
inductive SegReq
  | byIndex (i : ℕ)
  | byTime (t : ℚ)

/-- Responses of the segment endpoint (the distinct JSON shapes). -/
inductive SegRes
  | sessionNotFound
  | noSegment
  | ready (index : ℕ)
  | translating (index : ℕ)
  | generatingAudio (index : ℕ)
  deriving DecidableEq

/-- Segment lookup of the endpoint: by position for `segmentIndex`, else the
first segment whose `[startTime, endTime)` window contains `currentTime`. -/
def findSegment (sess : TTSSession) : SegReq → Option TranslatedSegment
  | .byIndex i => sess.segments.get? i
  | .byTime t => sess.segments.find? (fun s => decide (s.startTime ≤ t ∧ t < s.endTime))

/-- `POST /session/:sessionId/segment` after the session has been found, as
a step on the session state.  The returned `Bool` tells whether a
`generateSegmentAudio` background task was launched for the reported
segment (the task itself is `genAudio`, run as a later step). -/
def handleSegment (st : TTSState) (req : SegReq) : TTSState × SegRes × Bool :=
  match findSegment st.session req with
  | none => (st, .noSegment, false)
  | some seg =>
    if seg.audioReady = true ∧ seg.audioBuffer.isSome then (st, .ready seg.index, false)
    else if seg.translatedText = "" then (st, .translating seg.index, false)
    else if seg.index ∈ st.session.generatingAudio then
      (st, .generatingAudio seg.index, false)
    else (addGen st seg.index, .generatingAudio seg.index, true)

/-- The in-memory `sessions` map plus the shared cache. -/
structure TTSServer where
  sessions : String → Option TTSSession
  cache : String × String × ℕ → Option String

/-- The full segment endpoint including the session lookup
(`sessions.get(sessionId)`); a missing session is answered with the 404
`Session not found` response. -/
def handleSegmentRoute (srv : TTSServer) (sessionId : String) (req : SegReq) :
    TTSServer × SegRes × Bool :=
  match srv.sessions sessionId with
  | none => (srv, .sessionNotFound, false)
  | some sess =>
    let r := handleSegment ⟨sess, srv.cache⟩ req
    ({ sessions := fun k => if k = sessionId then some r.1.session else srv.sessions k,
       cache := r.1.cache }, r.2.1, r.2.2)

/-! ### Background translation (`translateAllSegments`) -/

/-- `batch.map(s => s.originalText).join(' ||| ')`. -/
def combineBatch (batch : List TranslatedSegment) : String :=
  String.intercalate " ||| " (batch.map TranslatedSegment.originalText)

/-- One iteration of the batch loop of `translateAllSegments`: a single
`translateText` call (`tr`) on the joined batch; on success the split parts
are assigned positionally with `translations[idx] || seg.originalText`
(an out-of-range or empty part falls back to the original text); on a
thrown error every segment of the batch falls back to its original text. -/
def applyBatch (tr : String → Except String String)
    (batch : List TranslatedSegment) : List TranslatedSegment :=
  match tr (combineBatch batch) with
  | .ok translated =>
    let translations := translated.splitOn " ||| "
    batch.mapIdx (fun idx s =>
      { s with translatedText :=
          if translations.getD idx "" = "" then s.originalText
          else translations.getD idx "" })
  | .error _ => batch.map (fun s => { s with translatedText := s.originalText })

/-- The batch partition of the loop `for (i = 0; i < n; i += batchSize)`
with `batchSize = 10`. -/
def batches (l : List TranslatedSegment) : List (List TranslatedSegment) :=
  match l with
  | [] => []
  | s :: rest => ((s :: rest).take 10) :: batches ((s :: rest).drop 10)
termination_by l.length
decreasing_by simp; omega

/-- `translateAllSegments(session)`, as a pure function of the session's
segment list (the source mutates the segments in place). -/
def translateAllSegments (tr : String → Except String String)
    (segs : List TranslatedSegment) : List TranslatedSegment :=
  match segs with
  | [] => []
  | s :: rest =>
    applyBatch tr ((s :: rest).take 10)
      ++ translateAllSegments tr ((s :: rest).drop 10)
termination_by segs.length
decreasing_by simp; omega

/-- `translateAllSegments` instrumented with the list of texts passed to the
translation provider, one entry per issued `translateText` call. -/
def translateAllSegmentsT (tr : String → Except String String)
    (segs : List TranslatedSegment) : List TranslatedSegment × List String :=
  match segs with
  | [] => ([], [])
  | s :: rest =>
    let batch := (s :: rest).take 10
    let r := translateAllSegmentsT tr ((s :: rest).drop 10)
    (applyBatch tr batch ++ r.1, combineBatch batch :: r.2)
termination_by segs.length
decreasing_by simp; omega

end TTS

/-! ## Standalone batch translator `translateSegments`
(src/server/src/services, lines 511–541 of the concatenated elevenlabs.ts
view): one combined call, and on a thrown error an automatic per-segment
fallback translation. -/

namespace Translate

open TTS (TranscriptSegment)

/-- `translateSegments(segments, targetLang)` with the translation provider
`tr` (`translateText` restricted to its text argument).  Returns the
segments paired with their `translatedText` and the list of texts passed to
the provider, in call order: the combined text first and, if that call
threw, one further call per segment (whose own failure falls back to the
segment's untranslated text). -/
def translateSegmentsSvc (tr : String → Except String String)
    (segments : List TranscriptSegment) :
    List (TranscriptSegment × String) × List String :=
  let combinedText := String.intercalate " ||| " (segments.map TranscriptSegment.text)
  match tr combinedText with
  | .ok translated =>
    let translatedParts := translated.splitOn " ||| "
    (segments.mapIdx (fun i seg =>
        (seg, if translatedParts.getD i "" = "" then seg.text
          else translatedParts.getD i "")),
      [combinedText])
  | .error _ =>
    (segments.map (fun seg =>
        (seg, match tr seg.text with | .ok r => r | .error _ => seg.text)),
      combinedText :: segments.map TranscriptSegment.text)

end Translate

/-! ### C4: translation batch fallback -/

namespace TTS

lemma translateAllSegmentsT_fst (tr : String → Except String String)
    (segs : List TranslatedSegment) :
    (translateAllSegmentsT tr segs).1 = translateAllSegments tr segs := by
  induction segs using translateAllSegmentsT.induct tr with
  | case1 => simp [translateAllSegmentsT, translateAllSegments]
  | case2 s rest ih =>
    rw [translateAllSegmentsT, translateAllSegments]
    simp at ih ⊢
    rw [ih]

lemma translateAllSegmentsT_calls (tr : String → Except String String)
    (segs : List TranslatedSegment) :
    (translateAllSegmentsT tr segs).2 = (batches segs).map combineBatch := by
  induction segs using translateAllSegmentsT.induct tr with
  | case1 => simp [translateAllSegmentsT, batches]
  | case2 s rest ih =>
    rw [translateAllSegmentsT, batches]
    simp at ih ⊢
    rw [ih]

lemma translateAllSegments_flatten (tr : String → Except String String)
    (segs : List TranslatedSegment) :
    translateAllSegments tr segs = ((batches segs).map (applyBatch tr)).flatten := by
  induction segs using translateAllSegments.induct tr with
  | case1 => simp [translateAllSegments, batches]
  | case2 s rest ih =>
    rw [translateAllSegments, batches]
    simp at ih ⊢
    rw [ih]

lemma applyBatch_error (tr : String → Except String String)
    (b : List TranslatedSegment) (e : String)
    (h : tr (combineBatch b) = .error e) :
    applyBatch tr b = b.map (fun s => { s with translatedText := s.originalText }) := by
  simp [applyBatch, h]

end TTS

open TTS in
/-- C4 (amended).  In the session pipeline (`translateAllSegments`) the
claim holds: the output is the concatenation, batch by batch, of each
batch's own outcome (so other batches are unaffected by a failure); exactly
one translation call is issued per batch, with no retry; and a batch whose
call throws ends with every segment's `translatedText` equal to its
`originalText`, leaving segments with nonempty original text eligible for
audio production.  The claim fails for the standalone `translateSegments`
service, which, after a failed combined call, automatically retries every
segment individually and falls back to the segment's own text only when the
individual call also throws. -/
theorem translate_batch_fallback (tr : String → Except String String)
    (segs b : List TranslatedSegment) (e : String)
    (herr : tr (combineBatch b) = .error e) :
    translateAllSegments tr segs = ((batches segs).map (applyBatch tr)).flatten
    ∧ (translateAllSegmentsT tr segs).1 = translateAllSegments tr segs
    ∧ (translateAllSegmentsT tr segs).2 = (batches segs).map combineBatch
    ∧ applyBatch tr b = b.map (fun s => { s with translatedText := s.originalText })
    ∧ (∀ s ∈ applyBatch tr b, ∃ s0 ∈ b, s.translatedText = s0.originalText)
    ∧ (∀ (raw : List TTS.TranscriptSegment) (e2 : String),
        tr (String.intercalate " ||| " (raw.map TTS.TranscriptSegment.text))
            = .error e2 →
        (Translate.translateSegmentsSvc tr raw).1
          = raw.map (fun seg =>
              (seg, match tr seg.text with | .ok r => r | .error _ => seg.text))) := by
  refine ⟨translateAllSegments_flatten tr segs, translateAllSegmentsT_fst tr segs,
    translateAllSegmentsT_calls tr segs, applyBatch_error tr b e herr, ?_, ?_⟩
  · intro s hs
    rw [applyBatch_error tr b e herr] at hs
    obtain ⟨s0, hs0, rfl⟩ := List.mem_map.1 hs
    exact ⟨s0, hs0, rfl⟩
  · intro raw e2 h2
    simp [Translate.translateSegmentsSvc, h2]

/-- Segment used by the C4 witness and counterexample sessions. -/
def seg0 : TTS.TranslatedSegment :=
  { index := 0, originalText := "x", translatedText := "",
    startTime := 0, endTime := 1, audioReady := false }

/-- Translation provider that throws on the combined text `"x"`. -/
def trBoomW : String → Except String String :=
  fun s => if s = "x" then .error "boom" else .ok s

/-- Witness for C4's amended theorem at a one-segment batch whose call
throws. -/
theorem translate_batch_fallback_witness :
    TTS.applyBatch trBoomW [seg0]
      = [{ seg0 with translatedText := seg0.originalText }] :=
  (translate_batch_fallback trBoomW [seg0] [seg0] "boom" rfl).2.2.2.1

/-- Translation provider that throws on the combined text of the
counterexample's two fragments and succeeds on each fragment alone. -/
def trBoomCex : String → Except String String :=
  fun s => if s = "a ||| b" then .error "boom" else .ok ("T" ++ s)

/-- Fragments of the C4 counterexample. -/
def cexFrags : List TTS.TranscriptSegment :=
  [{ text := "a", offset := 0, duration := 1000 },
   { text := "b", offset := 1000, duration := 1000 }]

/-- C4 (counterexample).  In the standalone `translateSegments` service, a
batch whose translation call throws does NOT end with every segment's
translated text equal to its original text, and the failed batch IS
automatically retried: the combined call for `["a", "b"]` throws, yet the
segments end translated as `"Ta"`/`"Tb"` (≠ the originals), and three
provider calls are issued (the failed batch call plus one automatic retry
per segment). -/
theorem translate_batch_fallback_cex :
    trBoomCex "a ||| b" = .error "boom"
    ∧ (Translate.translateSegmentsSvc trBoomCex cexFrags).1.map Prod.snd
        = ["Ta", "Tb"]
    ∧ ("Ta" : String) ≠ "a"
    ∧ (Translate.translateSegmentsSvc trBoomCex cexFrags).2
        = ["a ||| b", "a", "b"] := by
  exact ⟨rfl, by decide, by decide, by decide⟩

/-! ## Chunked dubbing pipeline (src/server/src/services/elevenlabs.ts,
first variant, and src/server/src/routes/dubbing.ts) -/

namespace Dub

/-- The status strings used by both jobs and chunks. -/
inductive JobStatus
  | pending
  | processing
  | completed
  | failed
  deriving Repr, DecidableEq

/-- `ChunkInfo`. -/
structure ChunkInfo where
  index : ℕ
  startTime : ℚ
  endTime : ℚ
  status : JobStatus
  dubbingId : Option String := none
  audioUrl : Option String := none
  error : Option String := none
  deriving Repr, DecidableEq

/-- `DubbingJob` (the `createdAt`/`updatedAt` wall-clock fields are elided). -/
structure DubbingJob where
  id : String
  youtubeUrl : String
  sourceLang : String
  targetLang : String
  status : JobStatus
  chunks : List ChunkInfo
  currentChunk : ℕ
  totalChunks : ℤ
  videoDuration : ℚ
  error : Option String := none
  deriving DecidableEq

/-- `videoDuration || CHUNK_DURATION` (an absent or zero — JavaScript falsy —
duration defaults to one chunk's worth). -/
def effectiveDuration (videoDuration : Option ℚ) : ℚ :=
  match videoDuration with
  | none => CHUNK_DURATION
  | some d => if d = 0 then CHUNK_DURATION else d

/-- `createDubbingJob(youtubeUrl, sourceLang, targetLang, videoDuration)`:
builds the chunk table (`totalChunks = Math.ceil(duration / CHUNK_DURATION)`;
chunk `i` spans `i*CHUNK_DURATION` to `min((i+1)*CHUNK_DURATION, duration)`)
and stores the job.  The background `processNextChunk` launched here is
modeled as a separate step (`processNextChunkGo`). -/
def createDubbingJob (jobId youtubeUrl sourceLang targetLang : String)
    (videoDuration : Option ℚ) : DubbingJob :=
  let duration := effectiveDuration videoDuration
  let totalChunks : ℤ := ⌈duration / CHUNK_DURATION⌉
  let chunks := (List.range totalChunks.toNat).map (fun i =>
    { index := i, startTime := (i : ℚ) * CHUNK_DURATION,
      endTime := min (((i : ℚ) + 1) * CHUNK_DURATION) duration,
      status := .pending : ChunkInfo })
  { id := jobId, youtubeUrl, sourceLang, targetLang, status := .pending, chunks,
    currentChunk := 0, totalChunks, videoDuration := duration }

/-- Status answers of `getDubbingProjectMetadata`, one per poll attempt. -/
inductive PollStatus
  | dubbed
  | failed (error : Option String)
  | processing
  deriving Repr, DecidableEq

def audioUrlFor (dubbingId targetLang : String) : String :=
  "/api/dubbing/audio/" ++ dubbingId ++ "/" ++ targetLang

/-- The attempt loop of `pollChunkCompletion` (`maxAttempts = 60`); `poll`
gives the provider's status answer at each attempt. -/
def pollChunkGo (poll : ℕ → PollStatus) (targetLang : String) (chunk : ChunkInfo) :
    ℕ → ℕ → Except String ChunkInfo
  | 0, _ => .error "Chunk dubbing timed out"
  | fuel + 1, attempt =>
    match chunk.dubbingId with
    | none => .error "No dubbing ID for chunk"
    | some did =>
      match poll attempt with
      | .dubbed =>
        .ok { chunk with
                status := .completed,
                audioUrl := some (audioUrlFor did targetLang) }
      | .failed e => .error ("Chunk dubbing failed: " ++ e.getD "Unknown error")
      | .processing => pollChunkGo poll targetLang chunk fuel (attempt + 1)

def maxPollAttempts : ℕ := 60

/-- `pollChunkCompletion(job, chunk)`: returns the completed chunk or throws
(an `Except.error`) on provider failure or on exhausting the 60 attempts. -/
def pollChunkCompletion (poll : ℕ → PollStatus) (targetLang : String)
    (chunk : ChunkInfo) : Except String ChunkInfo :=
  pollChunkGo poll targetLang chunk maxPollAttempts 0

/-- In-place update of `job.chunks[idx]`. -/
def setChunk (job : DubbingJob) (idx : ℕ) (f : ChunkInfo → ChunkInfo) : DubbingJob :=
  match job.chunks.get? idx with
  | none => job
  | some c => { job with chunks := job.chunks.set idx (f c) }

/-- Synchronous prefix of `processChunkPriority` (up to its first `await`):
mark the chunk `processing` and record it as the current chunk. -/
def startChunkPriority (job : DubbingJob) (idx : ℕ) : DubbingJob :=
  { setChunk job idx (fun c => { c with status := .processing }) with
    currentChunk := idx }

/-- Remainder of `processChunkPriority`: the single `dubAVideoOrAnAudioFile`
call (`dub`, counted by the returned `1`), then completion polling; any
thrown error is caught and recorded as chunk `failed` with the message. -/
def finishChunkPriority (dub : Except String String) (poll : ℕ → PollStatus)
    (job : DubbingJob) (idx : ℕ) : DubbingJob × ℕ :=
  match dub with
  | .error msg =>
    (setChunk job idx (fun c => { c with status := .failed, error := some msg }), 1)
  | .ok did =>
    let job1 := setChunk job idx (fun c => { c with dubbingId := some did })
    match job1.chunks.get? idx with
    | none => (job1, 1)
    | some c1 =>
      match pollChunkCompletion poll job1.targetLang c1 with
      | .ok c2 => (setChunk job1 idx (fun _ => c2), 1)
      | .error msg =>
        (setChunk job1 idx
          (fun c => { c with status := .failed, error := some msg }), 1)

/-- `processChunkPriority(job, targetIndex)` run to completion (guard plus
prefix plus remainder); the second component counts issued dubbing calls. -/
def processChunkPriority (dub : Except String String) (poll : ℕ → PollStatus)
    (job : DubbingJob) (idx : ℕ) : DubbingJob × ℕ :=
  match job.chunks.get? idx with
  | none => (job, 0)
  | some c =>
    if c.status = .pending then
      finishChunkPriority dub poll (startChunkPriority job idx) idx
    else (job, 0)

/-- The Redis keyspace: `job:<id>` entries plus the `dub:<url>:<lang>`
whole-job cache. -/
structure DubStore where
  jobs : String → Option DubbingJob
  dubCache : String → Option DubbingJob

def dubCacheKey (url lang : String) : String := "dub:" ++ url ++ ":" ++ lang

def setJob (st : DubStore) (jobId : String) (job : DubbingJob) : DubStore :=
  { st with jobs := fun k => if k = jobId then some job else st.jobs k }

/-- `requestChunk(jobId, chunkIndex)`: `null` when the job is missing or the
index is out of range; a completed or processing chunk is returned as is;
a pending chunk is marked processing (the synchronous prefix of the launched
`processChunkPriority`) and returned, the `Bool` recording that the
production task was launched.  A `failed` chunk is returned without
relaunching. -/
def requestChunk (st : DubStore) (jobId : String) (idx : ℕ) :
    DubStore × Option ChunkInfo × Bool :=
  match st.jobs jobId with
  | none => (st, none, false)
  | some job =>
    match job.chunks.get? idx with
    | none => (st, none, false)
    | some chunk =>
      if chunk.status = .completed ∨ chunk.status = .processing then
        (st, some chunk, false)
      else if chunk.status = .pending then
        let job1 := startChunkPriority job idx
        (setJob st jobId job1, job1.chunks.get? idx, true)
      else (st, some chunk, false)

/-- `getChunkForTime(jobId, currentTime)`; a floor index at or beyond the
chunk count (or below zero, where `chunks[i]` is `undefined`) is `null`. -/
def getChunkForTime (st : DubStore) (jobId : String) (currentTime : ℚ) :
    Option ChunkInfo :=
  match st.jobs jobId with
  | none => none
  | some job =>
    let chunkIndex := chunkIndexForTime currentTime
    if chunkIndex ≥ (job.chunks.length : ℤ) then none
    else if chunkIndex < 0 then none
    else job.chunks.get? chunkIndex.toNat

/-- Responses of `POST /api/dubbing/chunk/:jobId/:chunkIndex`. -/
inductive ChunkRouteRes
  | chunkNotFound
  | ok (c : ChunkInfo)
  deriving DecidableEq

/-- The route handler: a `null` from `requestChunk` — missing job or
out-of-range index alike — is answered 404 `Chunk not found`. -/
def postChunkRoute (st : DubStore) (jobId : String) (idx : ℕ) :
    DubStore × ChunkRouteRes :=
  match requestChunk st jobId idx with
  | (st', none, _) => (st', .chunkNotFound)
  | (st', some c, _) => (st', .ok c)

/-- `processNextChunk(job)`, one provider outcome per round (`dubAt`,
`pollAt`): find the first pending chunk; if none, mark the job completed
and report it for the `dub:` cache write; otherwise process it and recurse
on success, or record chunk and job failure (the caller swallows the
rethrown error).  `fuel` bounds the rounds; each successful round turns a
pending chunk into a completed one, so `fuel = chunks.length + 1` is always
enough. -/
def processNextChunkGo (dubAt : ℕ → Except String String)
    (pollAt : ℕ → ℕ → PollStatus) :
    ℕ → ℕ → DubbingJob → DubbingJob × Option DubbingJob
  | 0, _, job => (job, none)
  | fuel + 1, round, job =>
    match job.chunks.findIdx? (fun c => decide (c.status = .pending)) with
    | none =>
      let job' := { job with status := .completed }
      (job', some job')
    | some pidx =>
      match job.chunks.get? pidx with
      | none => (job, none)
      | some pc =>
        let job1 :=
          { setChunk job pidx (fun c => { c with status := .processing }) with
            status := .processing, currentChunk := pc.index }
        match dubAt round with
        | .error msg =>
          ({ setChunk job1 pidx
              (fun c => { c with status := .failed, error := some msg }) with
            status := .failed, error := some msg }, none)
        | .ok did =>
          let job2 := setChunk job1 pidx (fun c => { c with dubbingId := some did })
          match job2.chunks.get? pidx with
          | none => (job2, none)
          | some c2 =>
            match pollChunkCompletion (pollAt round) job2.targetLang c2 with
            | .ok c3 =>
              processNextChunkGo dubAt pollAt fuel (round + 1)
                (setChunk job2 pidx (fun _ => c3))
            | .error msg =>
              ({ setChunk job2 pidx
                  (fun c => { c with status := .failed, error := some msg }) with
                status := .failed, error := some msg }, none)

/-- The server-side operations that touch a stored dubbing job. -/
inductive DubOp
  | request (jobId : String) (idx : ℕ)
  | finish (jobId : String) (idx : ℕ) (dub : Except String String)
      (poll : ℕ → PollStatus)
  | next (jobId : String) (fuel : ℕ) (dubAt : ℕ → Except String String)
      (pollAt : ℕ → ℕ → PollStatus)

/-- Effect of one operation on the store (`finish` is the launched remainder
of a `requestChunk`-triggered `processChunkPriority`; `next` is a
`processNextChunk` run). -/
def stepOp (st : DubStore) : DubOp → DubStore
  | .request jobId idx => (requestChunk st jobId idx).1
  | .finish jobId idx dub poll =>
    match st.jobs jobId with
    | none => st
    | some job => setJob st jobId (finishChunkPriority dub poll job idx).1
  | .next jobId fuel dubAt pollAt =>
    match st.jobs jobId with
    | none => st
    | some job =>
      let r := processNextChunkGo dubAt pollAt fuel 0 job
      let st1 := setJob st jobId r.1
      match r.2 with
      | none => st1
      | some cj =>
        { st1 with dubCache := fun k =>
            if k = dubCacheKey cj.youtubeUrl cj.targetLang then some cj
            else st1.dubCache k }

end Dub

/-! ## Whole-video dubbing variant with `dub:` cache check
(second variant in the concatenated elevenlabs.ts view, lines 326–361) -/

namespace SimpleDub

/-- The chunkless `DubbingJob` of the cache-check variant. -/
structure DubbingJobS where
  id : String
  youtubeUrl : String
  sourceLang : String
  targetLang : String
  status : Dub.JobStatus
  dubbingId : Option String := none
  audioUrl : Option String := none
  error : Option String := none
  deriving Repr, DecidableEq

/-- `createDubbingJob(youtubeUrl, sourceLang, targetLang)` of the cache-check
variant: a cached completed job with an audio URL is returned as is; only
otherwise is a fresh pending job created and its `processDubbingJob`
launched (the returned `Bool`; the launched task is what issues the dubbing
provider call). -/
def createDubbingJob (cache : String → Option DubbingJobS)
    (newJobId url sourceLang targetLang : String) : DubbingJobS × Bool :=
  let fresh : DubbingJobS × Bool :=
    ({ id := newJobId, youtubeUrl := url, sourceLang, targetLang,
       status := .pending }, true)
  match cache (Dub.dubCacheKey url targetLang) with
  | some cachedJob =>
    if cachedJob.status = .completed ∧ cachedJob.audioUrl.isSome then
      (cachedJob, false)
    else fresh
  | none => fresh

end SimpleDub

/-! ## Client playback synchronizer (chunk-based content script,
src/unnamed/part_010 first variant) -/

namespace Client

/-- The mutable fields of the `HTMLAudioElement` the script drives. -/
structure AudioEl where
  url : String
  pos : ℚ
  rate : ℚ
  volume : ℚ
  deriving Repr, DecidableEq

/-- Content-script state: `currentJob` fields plus `currentChunkAudio` and
`currentChunkIndex` (which starts at `-1`, hence `ℤ`). -/
structure ClientState where
  chunks : List Dub.ChunkInfo
  serverUrl : String
  volume : ℚ
  currentChunkIndex : ℤ
  audio : Option AudioEl
  isActive : Bool
  deriving DecidableEq

/-- `chunks[i]` for a possibly negative index. -/
def lookupChunk (chunks : List Dub.ChunkInfo) (i : ℤ) : Option Dub.ChunkInfo :=
  if i < 0 then none else chunks.get? i.toNat

/-- `switchToChunk(chunk)`: discard the old audio, load the chunk's audio,
seek it to `max(0, videoTime - chunk.startTime)` and match the video's
playback rate. -/
def switchToChunk (st : ClientState) (videoTime videoRate : ℚ)
    (chunk : Dub.ChunkInfo) : ClientState :=
  match chunk.audioUrl with
  | none => st
  | some u =>
    { st with
      audio := some { url := st.serverUrl ++ u,
                      pos := max 0 (videoTime - chunk.startTime),
                      rate := videoRate, volume := st.volume / 100 },
      currentChunkIndex := (chunk.index : ℤ) }

/-- Tail of `checkCurrentChunk`: while audio is loaded and the video plays,
hard-seek the audio to `max(0, expectedOffset)` when the drift exceeds
0.3 s, and leave it untouched otherwise. -/
def syncDrift (st : ClientState) (videoTime : ℚ) (videoPaused : Bool) : ClientState :=
  match st.audio with
  | none => st
  | some a =>
    if videoPaused then st
    else
      match lookupChunk st.chunks st.currentChunkIndex with
      | none => st
      | some chunk =>
        let expectedOffset := videoTime - chunk.startTime
        if |expectedOffset - a.pos| > 3 / 10 then
          { st with audio := some { a with pos := max 0 expectedOffset } }
        else st

/-- One `checkCurrentChunk()` tick.  The returned list records the chunk
indices whose processing was requested from the server
(`requestChunkProcessing`).  A needed-but-unknown chunk returns early
without the drift sync, exactly as the source's `return`. -/
def checkCurrentChunk (st : ClientState) (videoTime : ℚ) (videoPaused : Bool)
    (videoRate : ℚ) : ClientState × List ℕ :=
  if st.isActive = false then (st, [])
  else
    let neededChunkIndex := getChunkIndex videoTime
    if neededChunkIndex ≠ st.currentChunkIndex then
      match lookupChunk st.chunks neededChunkIndex with
      | none => (st, [])
      | some chunk =>
        if chunk.status = .completed ∧ chunk.audioUrl.isSome then
          (syncDrift (switchToChunk st videoTime videoRate chunk) videoTime
            videoPaused, [])
        else if chunk.status = .pending then
          (syncDrift st videoTime videoPaused, [neededChunkIndex.toNat])
        else (syncDrift st videoTime videoPaused, [])
    else (syncDrift st videoTime videoPaused, [])

end Client

/-! ### C1: idempotent production triggering -/

namespace TTS

/-- Sessions built by `mergeIntoSentences` store segment `j` with
`index = j`; the handler and production task rely on this. -/
def consistent (st : TTSState) : Prop :=
  ∀ j seg, st.session.segments.get? j = some seg → seg.index = j

lemma consistent_setSeg {st : TTSState} {i : ℕ} {seg' : TranslatedSegment}
    (h : consistent st) (hidx : seg'.index = i) :
    consistent (setSeg st i seg') := by
  intro j s hj
  simp only [setSeg] at hj
  rcases eq_or_ne i j with rfl | hne
  · rw [List.get?_set_eq] at hj
    cases hx : st.session.segments.get? i with
    | none => rw [hx] at hj; simp at hj
    | some old => rw [hx] at hj; simp at hj; rw [← hj]; exact hidx
  · rw [List.get?_set_ne _ _ hne] at hj
    exact h j s hj

lemma genAudio_zero (speech : String → Except String String) (st : TTSState)
    (i : ℕ) : genAudio speech 0 st i = (st, []) := by
  rw [genAudio]

lemma genAudio_succ_none (speech : String → Except String String) (n : ℕ)
    (st : TTSState) (i : ℕ) (hx : st.session.segments.get? i = none) :
    genAudio speech (n + 1) st i = (st, []) := by
  simp only [genAudio, hx]

lemma genAudio_succ_cached (speech : String → Except String String) (n : ℕ)
    (st : TTSState) (i : ℕ) (seg : TranslatedSegment) (cached : String)
    (hx : st.session.segments.get? i = some seg)
    (hc : st.cache (st.session.youtubeUrl, st.session.targetLang, seg.index)
      = some cached) :
    genAudio speech (n + 1) st i =
      (delGen (setSeg st i
        { seg with audioBuffer := some cached, audioReady := true }) seg.index,
       []) := by
  simp only [genAudio, hx, hc]

lemma genAudio_succ_err (speech : String → Except String String) (n : ℕ)
    (st : TTSState) (i : ℕ) (seg : TranslatedSegment) (msg : String)
    (hx : st.session.segments.get? i = some seg)
    (hc : st.cache (st.session.youtubeUrl, st.session.targetLang, seg.index) = none)
    (hs : speech seg.translatedText = .error msg) :
    genAudio speech (n + 1) st i = (delGen st seg.index, [i]) := by
  simp only [genAudio, hx, hc, hs]

lemma genAudio_succ_ok (speech : String → Except String String) (n : ℕ)
    (st : TTSState) (i : ℕ) (seg : TranslatedSegment) (buf : String)
    (hx : st.session.segments.get? i = some seg)
    (hc : st.cache (st.session.youtubeUrl, st.session.targetLang, seg.index) = none)
    (hs : speech seg.translatedText = .ok buf) :
    genAudio speech (n + 1) st i =
      (let st3 := writeCache (delGen (setSeg st i
          { seg with audioBuffer := some buf, audioReady := true }) seg.index)
          (st.session.youtubeUrl, st.session.targetLang, seg.index) buf
       let p1 := genPrefetch speech n st3 seg.index 1
       let p2 := genPrefetch speech n p1.1 seg.index 2
       let p3 := genPrefetch speech n p2.1 seg.index 3
       (p3.1, i :: (p1.2 ++ p2.2 ++ p3.2))) := by
  simp only [genAudio, hx, hc, hs]
  rfl

lemma genPrefetch_cases (speech : String → Except String String) (fuel : ℕ)
    (st : TTSState) (base k : ℕ)
    (P : TTSState × List ℕ → Prop)
    (hskip : P (st, []))
    (hgo : ∀ nx, st.session.segments.get? (base + k) = some nx →
      nx.translatedText ≠ "" → nx.audioReady = false →
      nx.index ∉ st.session.generatingAudio →
      P (genAudio speech fuel (addGen st nx.index) (base + k))) :
    P (genPrefetch speech fuel st base k) := by
  rw [genPrefetch]
  split
  next hx => exact hskip
  next nx hx =>
    split
    next hcond => exact hgo nx hx hcond.1 hcond.2.1 hcond.2.2
    next hcond => exact hskip

lemma genAudio_consistent_mono (speech : String → Except String String) :
    ∀ (fuel : ℕ) (st : TTSState) (i : ℕ), consistent st →
      consistent (genAudio speech fuel st i).1
      ∧ (∀ x ∈ (genAudio speech fuel st i).2, i ≤ x) := by
  intro fuel
  induction fuel with
  | zero =>
    intro st i h
    rw [genAudio_zero]
    exact ⟨h, by simp⟩
  | succ n ih =>
    -- the prefetch step inherits both properties from `genAudio` at fuel `n`
    have hpre : ∀ (st : TTSState) (base k : ℕ), consistent st →
        consistent (genPrefetch speech n st base k).1
        ∧ (∀ x ∈ (genPrefetch speech n st base k).2, base + k ≤ x) := by
      intro st base k h
      refine genPrefetch_cases speech n st base k
        (fun r => consistent r.1 ∧ ∀ x ∈ r.2, base + k ≤ x) ⟨h, by simp⟩ ?_
      intro nx _ _ _ _
      exact ih (addGen st nx.index) (base + k) (fun j s hj => h j s hj)
    intro st i h
    cases hx : st.session.segments.get? i with
    | none =>
      rw [genAudio_succ_none speech n st i hx]
      exact ⟨h, by simp⟩
    | some seg =>
      have hidx : seg.index = i := h i seg hx
      cases hc : st.cache (st.session.youtubeUrl, st.session.targetLang, seg.index) with
      | some cached =>
        rw [genAudio_succ_cached speech n st i seg cached hx hc]
        refine ⟨fun j s hj => ?_, by simp⟩
        exact consistent_setSeg h (by simp [hidx]) j s hj
      | none =>
        cases hs : speech seg.translatedText with
        | error msg =>
          rw [genAudio_succ_err speech n st i seg msg hx hc hs]
          exact ⟨fun j s hj => h j s hj, by simp⟩
        | ok buf =>
          rw [genAudio_succ_ok speech n st i seg buf hx hc hs]
          have h3 : consistent (writeCache (delGen (setSeg st i
              { seg with audioBuffer := some buf, audioReady := true }) seg.index)
              (st.session.youtubeUrl, st.session.targetLang, seg.index) buf) :=
            fun j s hj => consistent_setSeg h (by simp [hidx]) j s hj
          obtain ⟨hc1, hm1⟩ := hpre _ seg.index 1 h3
          obtain ⟨hc2, hm2⟩ := hpre _ seg.index 2 hc1
          obtain ⟨hc3, hm3⟩ := hpre _ seg.index 3 hc2
          refine ⟨hc3, ?_⟩
          intro x hx'
          simp only [List.mem_cons, List.mem_append] at hx'
          rcases hx' with rfl | (hx' | hx') | hx'
          · exact le_refl x
          · have := hm1 x hx'; omega
          · have := hm2 x hx'; omega
          · have := hm3 x hx'; omega

/-- When the cache misses, a production run for segment `i` issues exactly
one `generateSpeech` call for `i` (the prefetch cascade only reaches
strictly larger indices). -/
lemma genAudio_count_self (speech : String → Except String String) (n : ℕ)
    (st : TTSState) (i : ℕ) (seg : TranslatedSegment)
    (h : consistent st)
    (hx : st.session.segments.get? i = some seg)
    (hc : st.cache (st.session.youtubeUrl, st.session.targetLang, seg.index) = none) :
    (genAudio speech (n + 1) st i).2.count i = 1 := by
  have hidx : seg.index = i := h i seg hx
  have hpre : ∀ (st : TTSState) (base k : ℕ), consistent st →
      consistent (genPrefetch speech n st base k).1
      ∧ (∀ x ∈ (genPrefetch speech n st base k).2, base + k ≤ x) := by
    intro st base k hcs
    refine genPrefetch_cases speech n st base k
      (fun r => consistent r.1 ∧ ∀ x ∈ r.2, base + k ≤ x) ⟨hcs, by simp⟩ ?_
    intro nx _ _ _ _
    exact genAudio_consistent_mono speech n (addGen st nx.index) (base + k)
      (fun j s hj => hcs j s hj)
  cases hs : speech seg.translatedText with
  | error msg =>
    rw [genAudio_succ_err speech n st i seg msg hx hc hs]
    simp
  | ok buf =>
    rw [genAudio_succ_ok speech n st i seg buf hx hc hs]
    have h3 : consistent (writeCache (delGen (setSeg st i
        { seg with audioBuffer := some buf, audioReady := true }) seg.index)
        (st.session.youtubeUrl, st.session.targetLang, seg.index) buf) :=
      fun j s hj => consistent_setSeg h (by simp [hidx]) j s hj
    obtain ⟨hc1, hm1⟩ := hpre _ seg.index 1 h3
    obtain ⟨hc2, hm2⟩ := hpre _ seg.index 2 hc1
    obtain ⟨hc3, hm3⟩ := hpre _ seg.index 3 hc2
    simp only [List.count_cons, List.count_append]
    have z1 : List.count i (genPrefetch speech n _ seg.index 1).2 = 0 :=
      List.count_eq_zero.2 (fun hm => by have := hm1 i hm; omega)
    have z2 : List.count i (genPrefetch speech n _ seg.index 2).2 = 0 :=
      List.count_eq_zero.2 (fun hm => by have := hm2 i hm; omega)
    have z3 : List.count i (genPrefetch speech n _ seg.index 3).2 = 0 :=
      List.count_eq_zero.2 (fun hm => by have := hm3 i hm; omega)
    rw [z1, z2, z3]
    simp

end TTS

namespace Dub

/-- Every completed `processChunkPriority` remainder issues exactly one
dubbing-provider call. -/
lemma finishChunkPriority_calls (dub : Except String String)
    (poll : ℕ → PollStatus) (job : DubbingJob) (idx : ℕ) :
    (finishChunkPriority dub poll job idx).2 = 1 := by
  unfold finishChunkPriority
  cases dub with
  | error msg => rfl
  | ok did =>
    dsimp only
    split
    · rfl
    · split <;> rfl

end Dub

namespace TTS

lemma mem_setAdd (s : List ℕ) (n : ℕ) : n ∈ setAdd s n := by
  by_cases h : n ∈ s <;> simp [setAdd, h]

lemma not_mem_setDelete (s : List ℕ) (n : ℕ) : n ∉ setDelete s n := by
  simp [setDelete]

end TTS

open TTS Dub in
/-- C1.  Requesting a unit whose production is in flight reports the
in-progress status without starting production again.  TTS pipeline: for a
segment with translated text, no audio and no in-flight entry, the first
request launches production (adding the index to `generatingAudio`) and the
second request, arriving before production completes, returns the same
`generating_audio` status with no further launch; the single launched
production run issues exactly one `generateSpeech` call for that unit when
the cache misses.  Dubbing pipeline: the first `requestChunk` on a pending
chunk marks it `processing` and launches its production, a second
`requestChunk` sees `processing` and returns the chunk without launching,
and each launched production task issues exactly one dubbing call. -/
theorem request_idempotent_production
    (speech : String → Except String String) (fuel : ℕ)
    (st : TTSState) (i : ℕ) (seg : TranslatedSegment)
    (hcons : consistent st)
    (hx : st.session.segments.get? i = some seg)
    (hready : ¬(seg.audioReady = true ∧ seg.audioBuffer.isSome))
    (htr : ¬seg.translatedText = "")
    (hfl : i ∉ st.session.generatingAudio)
    (hcache : st.cache (st.session.youtubeUrl, st.session.targetLang, seg.index)
      = none)
    (stD : DubStore) (jobId : String) (idx : ℕ) (job : DubbingJob)
    (chunk : ChunkInfo)
    (hj : stD.jobs jobId = some job)
    (hcx : job.chunks.get? idx = some chunk)
    (hp : chunk.status = .pending) :
    handleSegment st (.byIndex i) = (addGen st i, .generatingAudio i, true)
    ∧ handleSegment (addGen st i) (.byIndex i)
        = (addGen st i, .generatingAudio i, false)
    ∧ (genAudio speech (fuel + 1) (addGen st i) i).2.count i = 1
    ∧ requestChunk stD jobId idx
        = (setJob stD jobId (startChunkPriority job idx),
           some { chunk with status := .processing }, true)
    ∧ requestChunk (setJob stD jobId (startChunkPriority job idx)) jobId idx
        = (setJob stD jobId (startChunkPriority job idx),
           some { chunk with status := .processing }, false)
    ∧ (∀ (dub : Except String String) (poll : ℕ → PollStatus),
        (finishChunkPriority dub poll (startChunkPriority job idx) idx).2 = 1) := by
  have hidx : seg.index = i := hcons i seg hx
  subst hidx
  have hset : (startChunkPriority job idx).chunks.get? idx
      = some { chunk with status := .processing } := by
    show (setChunk job idx (fun c => { c with status := .processing })).chunks.get? idx = _
    simp only [setChunk, hcx]
    rw [List.get?_set_eq, hcx]
    rfl
  have hset2 : (startChunkPriority job idx).chunks[idx]?
      = some { chunk with status := .processing } := by
    rw [← List.get?_eq_getElem?]
    exact hset
  refine ⟨?_, ?_, ?_, ?_, ?_, fun dub poll => finishChunkPriority_calls dub poll _ idx⟩
  · simp only [handleSegment, findSegment, hx]
    rw [if_neg hready, if_neg htr, if_neg hfl]
  · have hx' : (addGen st seg.index).session.segments.get? seg.index = some seg := hx
    simp only [handleSegment, findSegment, hx']
    rw [if_neg hready, if_neg htr,
      if_pos (show seg.index ∈ (addGen st seg.index).session.generatingAudio from
        mem_setAdd st.session.generatingAudio seg.index)]
  · exact genAudio_count_self speech fuel (addGen st seg.index) seg.index seg
      (fun j s hj' => hcons j s hj') hx hcache
  · simp only [requestChunk, hj, hcx, hp]
    simp [hset, hset2]
  · have hj1 : (setJob stD jobId (startChunkPriority job idx)).jobs jobId
        = some (startChunkPriority job idx) := by simp [setJob]
    simp only [requestChunk, hj1, hset]
    simp [hset2]

/-- Session state used by the C1 and C5 witnesses: one segment, translated,
no audio yet, nothing in flight, empty cache. -/
def wSeg : TTS.TranslatedSegment :=
  { index := 0, originalText := "hi", translatedText := "hola",
    startTime := 0, endTime := 2, audioReady := false }

def wState : TTS.TTSState :=
  { session := { youtubeUrl := "u", targetLang := "es",
                 segments := [wSeg], generatingAudio := [] },
    cache := fun _ => none }

def wSpeech : String → Except String String := fun t => .ok ("audio:" ++ t)

def wChunk : Dub.ChunkInfo :=
  { index := 0, startTime := 0, endTime := 30, status := .pending }

def wJob : Dub.DubbingJob :=
  { id := "j", youtubeUrl := "u", sourceLang := "auto", targetLang := "es",
    status := .pending, chunks := [wChunk], currentChunk := 0, totalChunks := 1,
    videoDuration := 30 }

def wStore : Dub.DubStore :=
  { jobs := fun k => if k = "j" then some wJob else none,
    dubCache := fun _ => none }

lemma wState_consistent : TTS.consistent wState := by
  intro j s hj
  cases j with
  | zero =>
    simp [wState] at hj
    simp [← hj, wSeg]
  | succ n => simp [wState] at hj

/-- Witness for C1 at a concrete one-segment session and one-chunk job. -/
theorem request_idempotent_production_witness :
    TTS.handleSegment wState (.byIndex 0)
      = (TTS.addGen wState 0, .generatingAudio 0, true)
    ∧ TTS.handleSegment (TTS.addGen wState 0) (.byIndex 0)
        = (TTS.addGen wState 0, .generatingAudio 0, false)
    ∧ (TTS.genAudio wSpeech 1 (TTS.addGen wState 0) 0).2.count 0 = 1
    ∧ Dub.requestChunk wStore "j" 0
        = (Dub.setJob wStore "j" (Dub.startChunkPriority wJob 0),
           some { wChunk with status := .processing }, true) := by
  have h := request_idempotent_production wSpeech 0 wState 0 wSeg
    wState_consistent rfl (by decide) (by decide) (by decide) rfl
    wStore "j" 0 wJob wChunk rfl rfl rfl
  exact ⟨h.1, h.2.1, h.2.2.1, h.2.2.2.1⟩

/-! ### C3: cache short-circuit -/

open TTS in
/-- C3.  When the cache holds an entry for the unit's
`(url, language, index)` key, producing the unit adopts the cached payload,
marks it ready and clears the in-flight entry without issuing any
synthesis call — the recorded call list is empty, and `generateSegmentAudio`
contains no translation-provider call at all.  Likewise the cache-check
variant of `createDubbingJob` returns a cached completed job as is, creating
no fresh job and launching no dubbing work. -/
theorem cache_short_circuit
    (speech : String → Except String String) (n : ℕ)
    (st : TTSState) (i : ℕ) (seg : TranslatedSegment) (cached : String)
    (hx : st.session.segments.get? i = some seg)
    (hc : st.cache (st.session.youtubeUrl, st.session.targetLang, seg.index)
      = some cached) :
    (genAudio speech (n + 1) st i).2 = []
    ∧ (genAudio speech (n + 1) st i).1.session.segments.get? i
        = some { seg with audioBuffer := some cached, audioReady := true }
    ∧ seg.index ∉ (genAudio speech (n + 1) st i).1.session.generatingAudio
    ∧ (∀ (cacheJ : String → Option SimpleDub.DubbingJobS)
          (nid url sl tl : String) (cj : SimpleDub.DubbingJobS),
        cacheJ (Dub.dubCacheKey url tl) = some cj → cj.status = .completed →
        cj.audioUrl.isSome = true →
        SimpleDub.createDubbingJob cacheJ nid url sl tl = (cj, false)) := by
  rw [genAudio_succ_cached speech n st i seg cached hx hc]
  refine ⟨rfl, ?_, ?_, ?_⟩
  · simp only [delGen, setSeg]
    rw [List.get?_set_eq, hx]
    rfl
  · simp only [delGen, setSeg]
    exact not_mem_setDelete _ _
  · intro cacheJ nid url sl tl cj h1 h2 h3
    simp [SimpleDub.createDubbingJob, h1, h2, h3]

/-- TTS state with a cached audio payload for the single segment, which is
currently marked in flight. -/
def wStateC : TTS.TTSState :=
  { session := { youtubeUrl := "u", targetLang := "es",
                 segments := [wSeg], generatingAudio := [0] },
    cache := fun k => if k = ("u", "es", 0) then some "CACHED" else none }

/-- Witness for C3: with a cache entry present, production issues no call,
adopts the payload and clears the in-flight entry. -/
theorem cache_short_circuit_witness :
    (TTS.genAudio wSpeech 1 wStateC 0).2 = []
    ∧ (TTS.genAudio wSpeech 1 wStateC 0).1.session.segments.get? 0
        = some { wSeg with audioBuffer := some "CACHED", audioReady := true }
    ∧ 0 ∉ (TTS.genAudio wSpeech 1 wStateC 0).1.session.generatingAudio := by
  have h := cache_short_circuit wSpeech 0 wStateC 0 wSeg "CACHED" rfl rfl
  exact ⟨h.1, h.2.1, h.2.2.1⟩

/-! ### C5: production failure handling -/

namespace Dub

lemma setChunk_get? (job : DubbingJob) (idx : ℕ) (f : ChunkInfo → ChunkInfo)
    (c : ChunkInfo) (h : job.chunks.get? idx = some c) :
    (setChunk job idx f).chunks.get? idx = some (f c) := by
  simp only [setChunk, h]
  rw [List.get?_set_eq, h]
  rfl

lemma startChunkPriority_get? (job : DubbingJob) (idx : ℕ) (chunk : ChunkInfo)
    (h : job.chunks.get? idx = some chunk) :
    (startChunkPriority job idx).chunks.get? idx
      = some { chunk with status := .processing } := by
  show (setChunk job idx (fun c => { c with status := .processing })).chunks.get? idx = _
  exact setChunk_get? job idx _ chunk h

lemma pollChunkGo_const_processing (tl did : String) (chunk : ChunkInfo)
    (hdid : chunk.dubbingId = some did) :
    ∀ (fuel attempt : ℕ),
      pollChunkGo (fun _ => .processing) tl chunk fuel attempt
        = .error "Chunk dubbing timed out" := by
  intro fuel
  induction fuel with
  | zero => intro _; rfl
  | succ n ih =>
    intro attempt
    simp only [pollChunkGo, hdid]
    exact ih (attempt + 1)

lemma pollChunkGo_ok_status (poll : ℕ → PollStatus) (tl : String)
    (chunk : ChunkInfo) :
    ∀ (fuel attempt : ℕ) (c : ChunkInfo),
      pollChunkGo poll tl chunk fuel attempt = .ok c → c.status = .completed := by
  intro fuel
  induction fuel with
  | zero => intro attempt c h; simp [pollChunkGo] at h
  | succ n ih =>
    intro attempt c h
    rw [pollChunkGo] at h
    cases hdid : chunk.dubbingId with
    | none => rw [hdid] at h; simp at h
    | some did =>
      rw [hdid] at h
      cases hp : poll attempt with
      | dubbed => rw [hp] at h; simp at h; rw [← h]
      | failed e => rw [hp] at h; simp at h
      | processing => rw [hp] at h; exact ih (attempt + 1) c h

end Dub

open TTS Dub in
/-- C5 (amended).  In the chunked dubbing pipeline, a production task that
fails leaves the chunk in terminal `failed` with the error message recorded
(on a thrown dubbing call, on a provider-reported poll failure, and on
exhausting the 60-attempt poll ceiling with the `Chunk dubbing timed out`
message), the task issues no retries, swallows the error and always
terminates with the chunk `completed` or `failed`.  In the TTS segment
pipeline, however, a failed `generateSpeech` call only removes the unit
from the in-flight set: the segment record is left unchanged, so no
`failed` state or message is recorded, and the unit is simply eligible to
be started anew by a later request. -/
theorem production_failure_terminal
    (job : DubbingJob) (idx : ℕ) (chunk : ChunkInfo)
    (hcx : job.chunks.get? idx = some chunk)
    (hp : chunk.status = .pending) :
    (∀ (poll : ℕ → PollStatus) (msg : String),
      (processChunkPriority (.error msg) poll job idx).1.chunks.get? idx
        = some { chunk with status := .failed, error := some msg }
      ∧ (processChunkPriority (.error msg) poll job idx).2 = 1)
    ∧ (∀ did : String,
      (processChunkPriority (.ok did) (fun _ => .processing) job idx).1.chunks.get? idx
        = some { chunk with status := .failed,
                             dubbingId := some did,
                             error := some "Chunk dubbing timed out" })
    ∧ (∀ (did : String) (poll : ℕ → PollStatus) (e : String),
      poll 0 = .failed (some e) →
      (processChunkPriority (.ok did) poll job idx).1.chunks.get? idx
        = some { chunk with status := .failed,
                             dubbingId := some did,
                             error := some ("Chunk dubbing failed: " ++ e) })
    ∧ (∀ (dub : Except String String) (poll : ℕ → PollStatus),
      ∃ c', (processChunkPriority dub poll job idx).1.chunks.get? idx = some c'
        ∧ (c'.status = .completed ∨ c'.status = .failed))
    ∧ (∀ (speech : String → Except String String) (n : ℕ) (st : TTSState)
          (i : ℕ) (seg : TranslatedSegment) (msg : String),
        st.session.segments.get? i = some seg →
        st.cache (st.session.youtubeUrl, st.session.targetLang, seg.index) = none →
        speech seg.translatedText = .error msg →
        (genAudio speech (n + 1) st i).1.session.segments = st.session.segments
        ∧ seg.index ∉ (genAudio speech (n + 1) st i).1.session.generatingAudio
        ∧ (genAudio speech (n + 1) st i).2 = [i]) := by
  have hstart := startChunkPriority_get? job idx chunk hcx
  have hrun : ∀ (dub : Except String String) (poll : ℕ → PollStatus),
      processChunkPriority dub poll job idx
        = finishChunkPriority dub poll (startChunkPriority job idx) idx := by
    intro dub poll
    simp only [processChunkPriority, hcx, hp]
    simp
  have hget1 : ∀ did : String,
      (setChunk (startChunkPriority job idx) idx
        (fun c => { c with dubbingId := some did })).chunks.get? idx
      = some { chunk with status := .processing, dubbingId := some did } := by
    intro did
    exact setChunk_get? _ idx _ _ hstart
  refine ⟨?_, ?_, ?_, ?_, ?_⟩
  · intro poll msg
    rw [hrun]
    constructor
    · exact setChunk_get? _ idx _ { chunk with status := .processing } hstart
    · exact finishChunkPriority_calls _ poll _ idx
  · intro did
    rw [hrun]
    simp only [finishChunkPriority, hget1 did]
    have hpoll : pollChunkCompletion (fun _ => .processing)
        (setChunk (startChunkPriority job idx) idx
          (fun c => { c with dubbingId := some did })).targetLang
        { chunk with status := .processing, dubbingId := some did }
        = .error "Chunk dubbing timed out" :=
      pollChunkGo_const_processing _ did _ rfl maxPollAttempts 0
    rw [hpoll]
    exact setChunk_get? _ idx _ _ (hget1 did)
  · intro did poll e hpe
    rw [hrun]
    simp only [finishChunkPriority, hget1 did]
    have hpoll : pollChunkCompletion poll
        (setChunk (startChunkPriority job idx) idx
          (fun c => { c with dubbingId := some did })).targetLang
        { chunk with status := .processing, dubbingId := some did }
        = .error ("Chunk dubbing failed: " ++ e) := by
      show pollChunkGo poll _ _ (59 + 1) 0 = _
      simp only [pollChunkGo, hpe]
      rfl
    rw [hpoll]
    exact setChunk_get? _ idx _ _ (hget1 did)
  · intro dub poll
    rw [hrun]
    cases dub with
    | error msg =>
      refine ⟨{ chunk with status := .failed, error := some msg }, ?_, Or.inr rfl⟩
      exact setChunk_get? _ idx _ { chunk with status := .processing } hstart
    | ok did =>
      simp only [finishChunkPriority, hget1 did]
      cases hres : pollChunkCompletion poll
          (setChunk (startChunkPriority job idx) idx
            (fun c => { c with dubbingId := some did })).targetLang
          { chunk with status := .processing, dubbingId := some did } with
      | ok c2 =>
        refine ⟨c2, setChunk_get? _ idx _ _ (hget1 did), Or.inl ?_⟩
        exact pollChunkGo_ok_status poll _ _ maxPollAttempts 0 c2 hres
      | error msg =>
        exact ⟨{ chunk with status := .failed,
                             dubbingId := some did,
                             error := some msg },
          setChunk_get? _ idx _ _ (hget1 did), Or.inr rfl⟩
  · intro speech n st i seg msg hx hcn hs
    rw [genAudio_succ_err speech n st i seg msg hx hcn hs]
    exact ⟨rfl, not_mem_setDelete _ _, rfl⟩

/-- Failing speech provider for the C5 counterexample and witness. -/
def wFailSpeech : String → Except String String := fun _ => .error "boom"

/-- Session whose single segment is in flight right before its production
task fails. -/
def wStateF : TTS.TTSState :=
  { session := { youtubeUrl := "u", targetLang := "es",
                 segments := [wSeg], generatingAudio := [0] },
    cache := fun _ => none }

/-- C5 (counterexample).  In the TTS pipeline a failed production leaves no
terminal `failed` state and no recorded error message: after the provider
throws, the stored segment list is byte-for-byte the pre-production one
(the segment type has no status or error field to record anything in), the
in-flight set is emptied, and the very next request for the unit launches
production again — the unit is not in any terminal state. -/
theorem production_failure_cex :
    (TTS.genAudio wFailSpeech 1 wStateF 0).1.session.segments
        = wStateF.session.segments
    ∧ (TTS.genAudio wFailSpeech 1 wStateF 0).1.session.generatingAudio = []
    ∧ (TTS.handleSegment (TTS.genAudio wFailSpeech 1 wStateF 0).1
        (.byIndex 0)).2.2 = true := by
  have heq : TTS.genAudio wFailSpeech 1 wStateF 0 = (TTS.delGen wStateF 0, [0]) :=
    TTS.genAudio_succ_err wFailSpeech 0 wStateF 0 wSeg "boom" rfl rfl rfl
  rw [heq]
  exact ⟨rfl, by decide, by decide⟩

/-- Witness for C5's amended theorem: a thrown dubbing call marks the chunk
failed with the message, and a thrown TTS synthesis call leaves the segment
list untouched while still having issued its one call. -/
theorem production_failure_terminal_witness :
    (Dub.processChunkPriority (.error "x") (fun _ => .processing) wJob 0).1.chunks.get? 0
      = some { wChunk with status := .failed, error := some "x" }
    ∧ (TTS.genAudio wFailSpeech 1 wStateF 0).2 = [0] := by
  have h := production_failure_terminal wJob 0 wChunk rfl rfl
  exact ⟨(h.1 (fun _ => .processing) "x").1,
    (h.2.2.2.2 wFailSpeech 0 wStateF 0 wSeg "boom" rfl rfl rfl).2.2⟩

/-! ### C6: missing session versus out-of-range unit -/

open TTS Dub in
/-- C6 (amended).  In the TTS pipeline the two conditions are distinct
signals: a missing session is answered with the 404 `Session not found`
response, while an out-of-range index on an existing session is answered
with the 200 `no_segment` response.  In the chunked dubbing pipeline they
are NOT distinct: a missing job and an out-of-range chunk index both make
`requestChunk` return `null`, which the route answers with the same 404
`Chunk not found` response, so that consumer cannot tell whether to
recreate the session or fix the index. -/
theorem session_vs_unit_not_found
    (srv : TTSServer) (sid : String) (req : SegReq)
    (hmiss : srv.sessions sid = none)
    (srv2 : TTSServer) (sid2 : String) (sess : TTSSession) (i : ℕ)
    (hs2 : srv2.sessions sid2 = some sess) (hoob : sess.segments.length ≤ i)
    (stD : DubStore) (jid : String) (idx : ℕ)
    (hjm : stD.jobs jid = none)
    (stD2 : DubStore) (jid2 : String) (job2 : DubbingJob) (idx2 : ℕ)
    (hj2 : stD2.jobs jid2 = some job2) (hoob2 : job2.chunks.length ≤ idx2) :
    (handleSegmentRoute srv sid req).2.1 = .sessionNotFound
    ∧ (handleSegmentRoute srv2 sid2 (.byIndex i)).2.1 = .noSegment
    ∧ SegRes.sessionNotFound ≠ SegRes.noSegment
    ∧ (postChunkRoute stD jid idx).2 = .chunkNotFound
    ∧ (postChunkRoute stD2 jid2 idx2).2 = .chunkNotFound := by
  refine ⟨?_, ?_, by simp, ?_, ?_⟩
  · simp [handleSegmentRoute, hmiss]
  · have hnone : sess.segments.get? i = none := List.get?_eq_none.2 hoob
    have hnone2 : sess.segments[i]? = none := by
      rw [← List.get?_eq_getElem?]; exact hnone
    simp [handleSegmentRoute, hs2, handleSegment, findSegment, hnone, hnone2]
  · simp [postChunkRoute, requestChunk, hjm]
  · have hnone : job2.chunks.get? idx2 = none := List.get?_eq_none.2 hoob2
    have hnone2 : job2.chunks[idx2]? = none := by
      rw [← List.get?_eq_getElem?]; exact hnone
    simp [postChunkRoute, requestChunk, hj2, hnone, hnone2]

/-- C6 (counterexample).  On the dubbing store holding the single job `"j"`
with one chunk, the unit-request route answers a missing job (`"missing"`)
and an out-of-range index (`5` on `"j"`) with the SAME `Chunk not found`
response: the session-gone signal is not distinct from the bad-index
signal there. -/
theorem session_vs_unit_not_found_cex :
    (Dub.postChunkRoute wStore "missing" 0).2 = .chunkNotFound
    ∧ (Dub.postChunkRoute wStore "j" 5).2 = .chunkNotFound
    ∧ (Dub.postChunkRoute wStore "missing" 0).2
        = (Dub.postChunkRoute wStore "j" 5).2 := by
  refine ⟨?_, ?_, ?_⟩ <;> decide

/-- TTS server store holding the one-segment session under id `"s"`. -/
def wTTSServer : TTS.TTSServer :=
  { sessions := fun k => if k = "s" then some wState.session else none,
    cache := fun _ => none }

/-- Witness for C6's amended theorem on concrete stores. -/
theorem session_vs_unit_not_found_witness :
    (TTS.handleSegmentRoute wTTSServer "gone" (.byIndex 0)).2.1
      = .sessionNotFound
    ∧ (TTS.handleSegmentRoute wTTSServer "s" (.byIndex 7)).2.1 = .noSegment
    ∧ (Dub.postChunkRoute wStore "missing" 3).2 = .chunkNotFound
    ∧ (Dub.postChunkRoute wStore "j" 5).2 = .chunkNotFound := by
  have h := session_vs_unit_not_found wTTSServer "gone" (.byIndex 0) rfl
    wTTSServer "s" wState.session 7 rfl (by decide)
    wStore "missing" 3 rfl wStore "j" wJob 5 rfl (by decide)
  exact ⟨h.1, h.2.1, h.2.2.2.1, h.2.2.2.2⟩

/-! ### C7: drift correction -/

open Client in
/-- C7.  On a poll tick while the video plays and a chunk's audio is loaded
(steady state: the loaded chunk covers the current time), no chunk request
is issued and the drift rule is applied exactly: if the absolute difference
between the expected offset `videoTime − chunk.startTime` and the audio
position exceeds 0.3 s, the audio position is set to exactly
`max 0 expectedOffset` in a single hard seek with every other audio field
(in particular the playback rate) untouched; otherwise the whole state is
left unchanged — there is no gradual rate adjustment. -/
theorem drift_correction
    (st : ClientState) (videoTime videoRate : ℚ) (a : AudioEl)
    (chunk : Dub.ChunkInfo)
    (hact : st.isActive = true)
    (hsteady : getChunkIndex videoTime = st.currentChunkIndex)
    (haud : st.audio = some a)
    (hchunk : lookupChunk st.chunks st.currentChunkIndex = some chunk) :
    (checkCurrentChunk st videoTime false videoRate).2 = []
    ∧ (3 / 10 < |videoTime - chunk.startTime - a.pos| →
        (checkCurrentChunk st videoTime false videoRate).1
          = { st with
              audio := some { a with pos := max 0 (videoTime - chunk.startTime) } })
    ∧ (¬(3 / 10 < |videoTime - chunk.startTime - a.pos|) →
        (checkCurrentChunk st videoTime false videoRate).1 = st) := by
  have hrw : checkCurrentChunk st videoTime false videoRate
      = (syncDrift st videoTime false, []) := by
    simp [checkCurrentChunk, hact, hsteady]
  rw [hrw]
  refine ⟨rfl, ?_, ?_⟩
  · intro hdrift
    simp only [syncDrift, haud, hchunk]
    rw [if_neg (by simp), if_pos (by simpa using hdrift)]
  · intro hdrift
    simp only [syncDrift, haud, hchunk]
    rw [if_neg (by simp), if_neg (by simpa using hdrift)]

/-- Completed chunk loaded by the C7 witness client. -/
def wChunkDone : Dub.ChunkInfo :=
  { index := 0, startTime := 0, endTime := 30, status := .completed,
    audioUrl := some "/a" }

/-- Client state whose loaded audio has drifted 2 s ahead of the video. -/
def wClient : Client.ClientState :=
  { chunks := [wChunkDone], serverUrl := "u", volume := 100,
    currentChunkIndex := 0,
    audio := some { url := "u/a", pos := 2, rate := 1, volume := 1 },
    isActive := true }

/-- Witness for C7: a 2 s drift is hard-seeked to exactly
`max 0 (0 − 0) = 0` on the next tick. -/
theorem drift_correction_witness :
    (Client.checkCurrentChunk wClient 0 false 1).1
      = { wClient with
          audio := some { url := "u/a", pos := max 0 (0 - wChunkDone.startTime),
                          rate := 1, volume := 1 } } := by
  have h := drift_correction wClient 0 1
    { url := "u/a", pos := 2, rate := 1, volume := 1 } wChunkDone rfl
    (by simp [Client.getChunkIndex, Client.CHUNK_DURATION, wClient]) rfl (by decide)
  exact h.2.1 (by norm_num [wChunkDone])

/-! ### C9: chunk table shape at job creation -/

open Dub in
/-- C9 (amended).  At job creation, `totalChunks = ⌈duration / 30⌉` (with
the duration defaulting to one chunk's worth when absent or zero), the
chunk table has exactly that many entries, and chunk `i` has `index = i`,
`startTime = i * CHUNK_DURATION` and
`endTime = min((i+1) * CHUNK_DURATION, duration)` — which equals
`startTime + CHUNK_DURATION` only while `(i+1) * CHUNK_DURATION ≤ duration`;
the last chunk of a duration that is not a multiple of `CHUNK_DURATION` is
clipped to the video's end instead. -/
theorem chunk_table_shape (jobId url sl tl : String) (vd : Option ℚ) :
    (createDubbingJob jobId url sl tl vd).totalChunks
        = ⌈effectiveDuration vd / CHUNK_DURATION⌉
    ∧ (createDubbingJob jobId url sl tl vd).chunks.length
        = (⌈effectiveDuration vd / CHUNK_DURATION⌉ : ℤ).toNat
    ∧ (∀ i : ℕ, i < (createDubbingJob jobId url sl tl vd).chunks.length →
        (createDubbingJob jobId url sl tl vd).chunks.get? i
          = some { index := i, startTime := (i : ℚ) * CHUNK_DURATION,
                   endTime := min (((i : ℚ) + 1) * CHUNK_DURATION)
                     (effectiveDuration vd),
                   status := .pending })
    ∧ (∀ i : ℕ, ((i : ℚ) + 1) * CHUNK_DURATION ≤ effectiveDuration vd →
        min (((i : ℚ) + 1) * CHUNK_DURATION) (effectiveDuration vd)
          = (i : ℚ) * CHUNK_DURATION + CHUNK_DURATION) := by
  refine ⟨rfl, by simp [createDubbingJob], ?_, ?_⟩
  · intro i hi
    have hi' : i < (⌈effectiveDuration vd / CHUNK_DURATION⌉ : ℤ).toNat := by
      simpa [createDubbingJob] using hi
    simp only [createDubbingJob]
    rw [List.get?_map, List.get?_range hi']
    rfl
  · intro i h
    rw [min_eq_left h]
    ring

open Dub in
/-- C9 (counterexample).  With a 45-second video, job creation produces
`totalChunks = 2` and a second chunk `[30, 45]`: its `endTime` is clipped to
the video duration, not `startTime + CHUNK_DURATION = 60`, refuting the
claimed `endTime = startTime + CHUNK_DURATION` for every chunk. -/
theorem chunk_table_cex :
    (createDubbingJob "j" "u" "en" "es" (some 45)).totalChunks = 2
    ∧ (createDubbingJob "j" "u" "en" "es" (some 45)).chunks.get? 1
        = some { index := 1, startTime := (1 : ℚ) * 30,
                 endTime := (45 : ℚ), status := .pending }
    ∧ (1 : ℚ) * 30 + 30 ≠ (45 : ℚ) := by
  have hdur : effectiveDuration (some 45) = 45 := by norm_num [effectiveDuration]
  have hceil : (⌈(45 : ℚ) / 30⌉ : ℤ) = 2 := by
    rw [Int.ceil_eq_iff]
    norm_num
  have hlen : (⌈effectiveDuration (some 45) / CHUNK_DURATION⌉ : ℤ).toNat = 2 := by
    rw [hdur, CHUNK_DURATION, hceil]
    rfl
  refine ⟨?_, ?_, by norm_num⟩
  · show (⌈effectiveDuration (some 45) / CHUNK_DURATION⌉ : ℤ) = 2
    rw [hdur, CHUNK_DURATION, hceil]
  · simp only [createDubbingJob]
    rw [List.get?_map, hlen, List.get?_range (by norm_num)]
    simp only [Option.map_some', Option.some.injEq, ChunkInfo.mk.injEq]
    rw [hdur, CHUNK_DURATION]
    norm_num

open Dub in
/-- Witness for C9's amended theorem at a 45-second job: the second chunk
matches the stated shape, and a full (non-final) chunk's `endTime` is
`startTime + CHUNK_DURATION`. -/
theorem chunk_table_shape_witness :
    (createDubbingJob "j" "u" "en" "es" (some 45)).chunks.get? 1
      = some { index := 1, startTime := (1 : ℚ) * CHUNK_DURATION,
               endTime := min (((1 : ℚ) + 1) * CHUNK_DURATION)
                 (effectiveDuration (some 45)),
               status := .pending }
    ∧ min (((0 : ℚ) + 1) * CHUNK_DURATION) (effectiveDuration (some 45))
        = (0 : ℚ) * CHUNK_DURATION + CHUNK_DURATION := by
  have h := chunk_table_shape "j" "u" "en" "es" (some 45)
  have hlen : (createDubbingJob "j" "u" "en" "es" (some 45)).chunks.length = 2 := by
    rw [h.2.1]
    rw [show effectiveDuration (some 45) = 45 from by norm_num [effectiveDuration]]
    rw [CHUNK_DURATION]
    rw [show (⌈(45 : ℚ) / 30⌉ : ℤ) = 2 from by rw [Int.ceil_eq_iff]; norm_num]
    rfl
  refine ⟨?_, ?_⟩
  · have := h.2.2.1 1 (by rw [hlen]; norm_num)
    simpa using this
  · exact h.2.2.2 0 (by norm_num [CHUNK_DURATION, effectiveDuration])

/-! ### C10: unknown duration means a single, never-expanded chunk -/

namespace Dub

/-- The store right after `createDubbingJob` wrote the job under
`job:<id>`. -/
def singletonStore (jobId : String) (job : DubbingJob) : DubStore :=
  { jobs := fun k => if k = jobId then some job else none,
    dubCache := fun _ => none }

lemma setChunk_length (job : DubbingJob) (idx : ℕ) (f : ChunkInfo → ChunkInfo) :
    (setChunk job idx f).chunks.length = job.chunks.length := by
  unfold setChunk
  split
  · rfl
  · simp

lemma startChunkPriority_length (job : DubbingJob) (idx : ℕ) :
    (startChunkPriority job idx).chunks.length = job.chunks.length :=
  setChunk_length job idx _

lemma finishChunkPriority_length (dub : Except String String)
    (poll : ℕ → PollStatus) (job : DubbingJob) (idx : ℕ) :
    (finishChunkPriority dub poll job idx).1.chunks.length
      = job.chunks.length := by
  unfold finishChunkPriority
  cases dub with
  | error msg => exact setChunk_length _ _ _
  | ok did =>
    dsimp only
    split
    · exact setChunk_length _ _ _
    · split <;> simp [setChunk_length]

lemma processNextChunkGo_length (dubAt : ℕ → Except String String)
    (pollAt : ℕ → ℕ → PollStatus) :
    ∀ (fuel round : ℕ) (job : DubbingJob),
      (processNextChunkGo dubAt pollAt fuel round job).1.chunks.length
        = job.chunks.length := by
  intro fuel
  induction fuel with
  | zero => intro _ _; rfl
  | succ n ih =>
    intro round job
    rw [processNextChunkGo]
    split
    · rfl
    · split
      · rfl
      · split
        · simp [setChunk_length]
        · dsimp only
          split
          · simp [setChunk_length]
          · split
            · rw [ih]
              simp [setChunk_length]
            · simp [setChunk_length]

lemma requestChunk_jobs_length (st : DubStore) (jobId : String) (idx : ℕ)
    (k : String) :
    Option.map (fun j => j.chunks.length) ((requestChunk st jobId idx).1.jobs k)
      = Option.map (fun j => j.chunks.length) (st.jobs k) := by
  cases hj : st.jobs jobId with
  | none => simp [requestChunk, hj]
  | some job =>
    cases hcx : job.chunks.get? idx with
    | none =>
      have hcx2 : job.chunks[idx]? = none := by
        rw [← List.get?_eq_getElem?]; exact hcx
      simp [requestChunk, hj, hcx, hcx2]
    | some chunk =>
      simp only [requestChunk, hj, hcx]
      by_cases h1 : chunk.status = .completed ∨ chunk.status = .processing
      · simp [h1]
      · by_cases h2 : chunk.status = .pending
        · rw [if_neg h1, if_pos h2]
          rcases eq_or_ne k jobId with rfl | hne
          · simp [setJob, hj, startChunkPriority_length]
          · simp [setJob, hne]
        · simp [h1, h2]

lemma stepOp_jobs_length (st : DubStore) (op : DubOp) (k : String) :
    Option.map (fun j => j.chunks.length) ((stepOp st op).jobs k)
      = Option.map (fun j => j.chunks.length) (st.jobs k) := by
  cases op with
  | request jobId idx => exact requestChunk_jobs_length st jobId idx k
  | finish jobId idx dub poll =>
    simp only [stepOp]
    cases hj : st.jobs jobId with
    | none => rfl
    | some job =>
      rcases eq_or_ne k jobId with rfl | hne
      · simp [setJob, hj, finishChunkPriority_length]
      · simp [setJob, hne]
  | next jobId fuel dubAt pollAt =>
    cases hj : st.jobs jobId with
    | none => simp [stepOp, hj]
    | some job =>
      have hsame : (stepOp st (.next jobId fuel dubAt pollAt)).jobs
          = (setJob st jobId (processNextChunkGo dubAt pollAt fuel 0 job).1).jobs := by
        simp only [stepOp, hj]
        split <;> rfl
      rw [hsame]
      rcases eq_or_ne k jobId with rfl | hne
      · simp [setJob, hj, processNextChunkGo_length]
      · simp [setJob, hne]

lemma foldOps_jobs_length (ops : List DubOp) :
    ∀ (st : DubStore) (k : String),
      Option.map (fun j => j.chunks.length) ((ops.foldl stepOp st).jobs k)
        = Option.map (fun j => j.chunks.length) (st.jobs k) := by
  induction ops with
  | nil => intro _ _; rfl
  | cons op rest ih =>
    intro st k
    rw [List.foldl_cons, ih, stepOp_jobs_length]

end Dub

open Dub in
/-- C10.  A job created without a known `videoDuration` gets exactly one
chunk, covering `[0, CHUNK_DURATION]`, with `totalChunks = 1`; no modeled
server operation (`requestChunk`, the launched production remainder, or a
`processNextChunk` run) ever changes any job's chunk count, so after any
sequence of operations a request for chunk index ≥ 1 — or for a time at or
past `CHUNK_DURATION` — returns the not-found result. -/
theorem unknown_duration_single_chunk
    (jobId url sl tl : String) (ops : List DubOp) (idx : ℕ) (t : ℚ)
    (hidx : 1 ≤ idx) (ht : 30 ≤ t) :
    (createDubbingJob jobId url sl tl none).totalChunks = 1
    ∧ (createDubbingJob jobId url sl tl none).chunks.length = 1
    ∧ (createDubbingJob jobId url sl tl none).chunks.get? 0
        = some { index := 0, startTime := 0, endTime := 30, status := .pending }
    ∧ (requestChunk
        (ops.foldl stepOp
          (singletonStore jobId (createDubbingJob jobId url sl tl none)))
        jobId idx).2.1 = none
    ∧ getChunkForTime
        (ops.foldl stepOp
          (singletonStore jobId (createDubbingJob jobId url sl tl none)))
        jobId t = none := by
  have hceil : (⌈effectiveDuration none / CHUNK_DURATION⌉ : ℤ) = 1 := by
    rw [show effectiveDuration none = 30 from rfl, CHUNK_DURATION, Int.ceil_eq_iff]
    norm_num
  have hlen : (createDubbingJob jobId url sl tl none).chunks.length = 1 := by
    simp [createDubbingJob, hceil]
  have hfold := foldOps_jobs_length ops
    (singletonStore jobId (createDubbingJob jobId url sl tl none)) jobId
  have hinit : (singletonStore jobId
      (createDubbingJob jobId url sl tl none)).jobs jobId
      = some (createDubbingJob jobId url sl tl none) := by
    simp [singletonStore]
  rw [hinit] at hfold
  refine ⟨?_, hlen, ?_, ?_, ?_⟩
  · show (⌈effectiveDuration none / CHUNK_DURATION⌉ : ℤ) = 1
    exact hceil
  · simp only [createDubbingJob]
    rw [List.get?_map,
      List.get?_range (by rw [hceil]; norm_num)]
    simp only [Option.map_some', Option.some.injEq, ChunkInfo.mk.injEq]
    norm_num [CHUNK_DURATION, effectiveDuration]
  · cases hs : (ops.foldl stepOp
        (singletonStore jobId (createDubbingJob jobId url sl tl none))).jobs jobId with
    | none => simp [requestChunk, hs]
    | some j' =>
      rw [hs] at hfold
      have hl' : j'.chunks.length = 1 := by
        simpa [hlen] using hfold
      have hnone : j'.chunks.get? idx = none :=
        List.get?_eq_none.2 (by omega)
      have hnone2 : j'.chunks[idx]? = none := by
        rw [← List.get?_eq_getElem?]; exact hnone
      simp [requestChunk, hs, hnone, hnone2]
  · cases hs : (ops.foldl stepOp
        (singletonStore jobId (createDubbingJob jobId url sl tl none))).jobs jobId with
    | none => simp [getChunkForTime, hs]
    | some j' =>
      rw [hs] at hfold
      have hl' : j'.chunks.length = 1 := by
        simpa [hlen] using hfold
      have hge : (1 : ℤ) ≤ chunkIndexForTime t := by
        rw [chunkIndexForTime, CHUNK_DURATION]
        refine Int.le_floor.2 ?_
        rw [le_div_iff (by norm_num)]
        push_cast
        linarith
      simp only [getChunkForTime, hs, hl']
      rw [if_pos (by exact_mod_cast hge)]

open Dub in
/-- Witness for C10 with the empty operation sequence, chunk index 1 and
time 30. -/
theorem unknown_duration_single_chunk_witness :
    (createDubbingJob "j" "u" "en" "es" none).chunks.length = 1
    ∧ (requestChunk
        (([] : List DubOp).foldl stepOp
          (singletonStore "j" (createDubbingJob "j" "u" "en" "es" none)))
        "j" 1).2.1 = none
    ∧ getChunkForTime
        (([] : List DubOp).foldl stepOp
          (singletonStore "j" (createDubbingJob "j" "u" "en" "es" none)))
        "j" 30 = none := by
  have h := unknown_duration_single_chunk "j" "u" "en" "es" [] 1 30
    (by norm_num) (by norm_num)
  exact ⟨h.2.1, h.2.2.2.1, h.2.2.2.2⟩

end Hercules

